import Mathlib

/-!
Verification of the Batch AI job-submission notebook
`src/HorovodPytorch/01_TrainPyTorchModel.py` (repository
GKarmakar/DistributedDeepLearning).

The notebook reads configuration values from a `.env`-style store
(`get_key`) and from the process environment (`os.getenv`), builds a Batch
AI job descriptor (`jobs_dict`, a nested dictionary whose `commandLine`
f-string embeds an `mpirun` invocation), serializes it to `job.json`, and
runs a fixed sequence of `az` CLI commands (create experiment, upload
scripts, submit job, poll and stream, delete resources).

The definitions below are a shallow embedding of that script:
* configuration values `NUM_NODES` and `PROCESSES_PER_NODE` are modelled as
  naturals (the values the notebook's parameter cell is meant to carry;
  line 53 multiplies them, and line 77 uses `NUM_NODES` as the numeric
  `nodeCount`);
* the f-string of lines 79-93 becomes an explicit concatenation with
  `Nat.repr` for the interpolated number (Python renders an `int` in an
  f-string as its decimal digits);
* the `az` command sequence becomes a list of steps, recording for each
  delete command whether it passes the CLI flag `-y`
  ("do not prompt for confirmation").
-/

set_option maxRecDepth 10000

/-- Line 52: `FAKE='-env FAKE=True' if USE_FAKE else ''`. -/
def FAKE (USE_FAKE : Bool) : String :=
  if USE_FAKE then "-env FAKE=True" else ""

/-- Line 53: `TOTAL_PROCESSES = PROCESSES_PER_NODE * NUM_NODES`. -/
def TOTAL_PROCESSES (PROCESSES_PER_NODE NUM_NODES : Nat) : Nat :=
  PROCESSES_PER_NODE * NUM_NODES

/-- The literal text of the `commandLine` f-string (lines 79-93) before the
interpolated `{TOTAL_PROCESSES}`.  Inside the Python string literal each
`\`-newline is a line continuation contributing nothing, so each source line
contributes its text, its trailing space, and the next line's leading
indentation (four or six spaces). -/
def cmdTextBeforeNp : String :=
  "echo $AZ_BATCH_HOST_LIST;     cat $AZ_BATCHAI_MPI_HOST_FILE;     mpirun -np "

/-- The literal text of the `commandLine` f-string between `{TOTAL_PROCESSES}`
and `{FAKE}`. -/
def cmdTextMid : String :=
  " --hostfile $AZ_BATCHAI_MPI_HOST_FILE     -bind-to none -map-by slot     -x NCCL_DEBUG=INFO -x LD_LIBRARY_PATH     -mca btl_tcp_if_include eth0     -x NCCL_SOCKET_IFNAME=eth0     -mca btl ^openib     -x NCCL_IB_DISABLE=1     -x DISTRIBUTED=True     -x AZ_BATCHAI_INPUT_TRAIN     -x AZ_BATCHAI_INPUT_TEST     --allow-run-as-root       "

/-- The literal text of the `commandLine` f-string after `{FAKE}`. -/
def cmdTextAfterFake : String :=
  "       python -u $AZ_BATCHAI_INPUT_SCRIPTS/imagenet_pytorch_horovod.py"

/-- The `commandLine` f-string of lines 79-93, as a function of the two
interpolated values. -/
def commandLine (TOTAL_PROCESSES : Nat) (FAKE : String) : String :=
  cmdTextBeforeNp ++ Nat.repr TOTAL_PROCESSES ++ cmdTextMid ++ FAKE ++ cmdTextAfterFake

/-- An entry of `inputDirectories` (lines 96-108): `{id, path}`. -/
structure InputDirectory where
  id : String
  path : String
deriving DecidableEq

/-- An entry of `outputDirectories` (lines 109-113). -/
structure OutputDirectory where
  id : String
  stdPathPfx : String
  stdPathSfx : String
deriving DecidableEq

/-- `imageSourceRegistry` (lines 115-117). -/
structure ImageSourceRegistry where
  image : String
deriving DecidableEq

/-- `containerSettings` (lines 114-118). -/
structure ContainerSettings where
  imageSourceRegistry : ImageSourceRegistry
deriving DecidableEq

/-- `customToolkitSettings` (lines 78-94). -/
structure CustomToolkitSettings where
  commandLine : String
deriving DecidableEq

/-- The `properties` object of `jobs_dict` (lines 76-119).  The JSON keys
`pathPrefix`/`pathSuffix` of an output directory are the fields
`stdPathPfx`/`stdPathSfx` of `OutputDirectory`. -/
structure JobProperties where
  nodeCount : Nat
  customToolkitSettings : CustomToolkitSettings
  stdOutErrPath : String
  inputDirectories : List InputDirectory
  outputDirectories : List OutputDirectory
  containerSettings : ContainerSettings
deriving DecidableEq

/-- The whole `jobs_dict` document (lines 74-120): the JSON key `$schema`
is the field `schema`, `properties` as above.  `stdOutErrPath` carries the
JSON key `stdOutErrPathPrefix`. -/
structure JobsDict where
  schema : String
  properties : JobProperties
deriving DecidableEq

/-- The dictionary literal `jobs_dict` of lines 74-120, as a function of the
configuration values it mentions (`NUM_NODES`, `PROCESSES_PER_NODE` through
`TOTAL_PROCESSES`, `USE_FAKE` through `FAKE`, and `DOCKERHUB`). -/
def jobs_dict (NUM_NODES PROCESSES_PER_NODE : Nat) (USE_FAKE : Bool)
    (DOCKERHUB : String) : JobsDict :=
  { schema := "https://raw.githubusercontent.com/Azure/BatchAI/master/schemas/2017-09-01-preview/job.json"
    properties :=
    { nodeCount := NUM_NODES
      customToolkitSettings :=
        { commandLine := commandLine (TOTAL_PROCESSES PROCESSES_PER_NODE NUM_NODES) (FAKE USE_FAKE) }
      stdOutErrPath := "$AZ_BATCHAI_MOUNT_ROOT/extfs"
      inputDirectories :=
        [{ id := "SCRIPTS", path := "$AZ_BATCHAI_MOUNT_ROOT/extfs/scripts" },
         { id := "TRAIN", path := "$AZ_BATCHAI_MOUNT_ROOT/nfs/imagenet" },
         { id := "TEST", path := "$AZ_BATCHAI_MOUNT_ROOT/nfs/imagenet" }]
      outputDirectories :=
        [{ id := "MODEL", stdPathPfx := "$AZ_BATCHAI_MOUNT_ROOT/extfs", stdPathSfx := "Models" }]
      containerSettings :=
        { imageSourceRegistry := { image := DOCKERHUB ++ "/caia-horovod-pytorch" } } } }

/-- Line 124: `JOB_NAME='pytorch-horovod-{}'.format(NUM_NODES*PROCESSES_PER_NODE)`. -/
def JOB_NAME (NUM_NODES PROCESSES_PER_NODE : Nat) : String :=
  "pytorch-horovod-" ++ Nat.repr (NUM_NODES * PROCESSES_PER_NODE)

/-- The `.env`-style configuration store read through `get_key` (lines
38-45).  `get_key` returns the stored value, or `None` when the key is
absent; a key is modelled as `none` when missing.  `NUM_NODES` and
`PROCESSES_PER_NODE` are modelled as naturals (see the file comment). -/
structure EnvStore where
  GROUP_NAME : Option String
  FILE_SHARE_NAME : Option String
  WORKSPACE : Option String
  NUM_NODES : Option Nat
  CLUSTER_NAME : Option String
  GPU_TYPE : Option String
  PROCESSES_PER_NODE : Option Nat
deriving DecidableEq

/-- The process environment read through `os.getenv` (line 49). -/
structure OsEnv where
  DOCKER_REPOSITORY : Option String
deriving DecidableEq

/-- The uncaught Python exception through which the script can die before
writing `job.json`: line 53 evaluates `PROCESSES_PER_NODE * NUM_NODES`,
which raises `TypeError` when either operand is `None` (a missing key). -/
inductive PyError where
  | typeError
deriving DecidableEq

/-- Lines 38-53 and 74-122 of the script: resolve the configuration and
build the job descriptor that `write_json_to_file` then serializes.
`USE_FAKE` is the literal `False` of line 48 (it is not read from any
store), and `DOCKERHUB` is `os.getenv('DOCKER_REPOSITORY', "masalvar")`
(line 49).  A missing `NUM_NODES` or `PROCESSES_PER_NODE` makes line 53
raise `TypeError`, so no descriptor is produced; a missing `GPU_TYPE` only
changes the experiment name of line 47 and a missing `DOCKER_REPOSITORY`
falls back to the default, so neither prevents the descriptor. -/
def runBuilder (store : EnvStore) (env : OsEnv) : Except PyError JobsDict :=
  let USE_FAKE : Bool := false
  let DOCKERHUB : String := env.DOCKER_REPOSITORY.getD "masalvar"
  match store.PROCESSES_PER_NODE, store.NUM_NODES with
  | some ppn, some nn => Except.ok (jobs_dict nn ppn USE_FAKE DOCKERHUB)
  | _, _ => Except.error PyError.typeError

/-- The kinds of external steps the notebook runs, in source order
(lines 57-168). -/
inductive StepKind where
  | experimentCreate
  | storageUpload
  | clusterList
  | writeDescriptor
  | jobCreate
  | jobList
  | jobFileList
  | jobFileStream
  | jobDelete
  | configureDefaults
  | clusterDelete
  | experimentDelete
  | workspaceDelete
  | groupDelete
deriving DecidableEq

/-- One step of the notebook's pipeline.  `autoYes` records whether the
`az` command carries the `-y` flag ("do not prompt for confirmation");
only delete commands take it, and in this script every delete does. -/
structure Step where
  kind : StepKind
  autoYes : Bool
deriving DecidableEq

/-- The notebook's fixed sequence of external operations, in source order:
`az batchai experiment create` (57), four `az storage file upload`
(61-64), `az batchai cluster list` (68), `write_json_to_file` (122),
`az batchai job create` (128), `az batchai job list` (132), `az batchai
job file list` (136), two `az batchai job file stream` (140, 142),
`az batchai job delete -y` (146), two `az configure --defaults`
(153-154), `az batchai cluster delete -y` (158), `az batchai experiment
delete -y` (162), `az batchai workspace delete -y` (164), and
`az group delete -y` (168). -/
def script : List Step :=
  [⟨StepKind.experimentCreate, false⟩,
   ⟨StepKind.storageUpload, false⟩,
   ⟨StepKind.storageUpload, false⟩,
   ⟨StepKind.storageUpload, false⟩,
   ⟨StepKind.storageUpload, false⟩,
   ⟨StepKind.clusterList, false⟩,
   ⟨StepKind.writeDescriptor, false⟩,
   ⟨StepKind.jobCreate, false⟩,
   ⟨StepKind.jobList, false⟩,
   ⟨StepKind.jobFileList, false⟩,
   ⟨StepKind.jobFileStream, false⟩,
   ⟨StepKind.jobFileStream, false⟩,
   ⟨StepKind.jobDelete, true⟩,
   ⟨StepKind.configureDefaults, false⟩,
   ⟨StepKind.configureDefaults, false⟩,
   ⟨StepKind.clusterDelete, true⟩,
   ⟨StepKind.experimentDelete, true⟩,
   ⟨StepKind.workspaceDelete, true⟩,
   ⟨StepKind.groupDelete, true⟩]

/-- The delete operations among the step kinds (job, cluster, experiment,
workspace, group). -/
def isDelete : StepKind → Bool
  | StepKind.jobDelete => true
  | StepKind.clusterDelete => true
  | StepKind.experimentDelete => true
  | StepKind.workspaceDelete => true
  | StepKind.groupDelete => true
  | _ => false

/-- The status-poll and log-stream operations among the step kinds. -/
def isPollOrStream : StepKind → Bool
  | StepKind.jobList => true
  | StepKind.jobFileList => true
  | StepKind.jobFileStream => true
  | _ => false

/-!
## String-scanning functions

The claims speak about what the `commandLine` string contains: the process
count embedded after `mpirun -np`, the number of occurrences of the
`-env FAKE=True` token, and the ids referenced as `AZ_BATCHAI_INPUT_<ID>`.
The functions below scan a list of characters for these; the theorems then
evaluate them on the strings the builder emits.
-/

/-- The number of positions of `l` at which the block `p` occurs. -/
def occs (p : List Char) : List Char → Nat
  | [] => 0
  | x :: l => (if p.isPrefixOf (x :: l) then 1 else 0) + occs p l

/-- Everything after the first occurrence of the block `p` in `l`
(`none` when `p` does not occur). -/
def afterFirst (p : List Char) : List Char → Option (List Char)
  | [] => none
  | x :: l =>
    if p.isPrefixOf (x :: l) then some ((x :: l).drop p.length)
    else afterFirst p l

/-- After every occurrence of the block `p` in `l`, the maximal run of
characters satisfying `f` that follows it. -/
def extractAfter (p : List Char) (f : Char → Bool) : List Char → List (List Char)
  | [] => []
  | x :: l =>
    (if p.isPrefixOf (x :: l) then [(((x :: l).drop p.length).takeWhile f)] else [])
      ++ extractAfter p f l

/-- The maximal digit run following the first occurrence of `pat` in `s`:
the number textually embedded right after `pat`. -/
def digitsAfter (pat s : String) : Option (List Char) :=
  (afterFirst pat.data s.data).map (List.takeWhile Char.isDigit)

/-- `p` does not occur in `a` at any position that would survive extending
`a` on the right by `p` itself: `a.tails` enumerates the positions, and at
each nonempty tail `t` the first `p.length` characters of `t ++ p` are
examined.  This is the side condition under which `afterFirst` finds the
occurrence of `p` planted right after `a` (`afterFirst_plant`). -/
def noEarlyOcc (p a : List Char) : Bool :=
  a.tails.all fun t => t.isEmpty || !(p.isPrefixOf (t ++ p))

/-!
## Digit facts about `Nat.repr`

Python renders `{TOTAL_PROCESSES}` as the decimal digits of the number.
The scanning proofs need that `Nat.repr n` is a nonempty string of digit
characters: a block of searched-for text without digit characters can then
never overlap it.
-/

theorem digitChar_isDigit {n : Nat} (h : n < 10) : (Nat.digitChar n).isDigit = true := by
  interval_cases n <;> decide

theorem toDigitsCore_digits (fuel : Nat) : ∀ (n : Nat) (ds : List Char),
    (∀ c ∈ ds, c.isDigit = true) →
    ∀ c ∈ Nat.toDigitsCore 10 fuel n ds, c.isDigit = true := by
  induction fuel with
  | zero => intro n ds hds; simpa [Nat.toDigitsCore] using hds
  | succ fuel ih =>
    intro n ds hds c hc
    simp only [Nat.toDigitsCore] at hc
    have hdig : (Nat.digitChar (n % 10)).isDigit = true :=
      digitChar_isDigit (Nat.mod_lt _ (by omega))
    by_cases h0 : n / 10 = 0
    · rw [if_pos h0] at hc
      rcases List.mem_cons.mp hc with rfl | hmem
      · exact hdig
      · exact hds c hmem
    · rw [if_neg h0] at hc
      refine ih (n / 10) _ ?_ c hc
      intro d hd
      rcases List.mem_cons.mp hd with rfl | hmem
      · exact hdig
      · exact hds d hmem

theorem repr_data_digits (n : Nat) : ∀ c ∈ (Nat.repr n).data, c.isDigit = true := by
  intro c hc
  exact toDigitsCore_digits (n + 1) n [] (by simp) c hc

theorem toDigitsCore_length (fuel : Nat) : ∀ (n : Nat) (ds : List Char),
    ds.length ≤ (Nat.toDigitsCore 10 fuel n ds).length := by
  induction fuel with
  | zero => intro n ds; simp [Nat.toDigitsCore]
  | succ fuel ih =>
    intro n ds
    simp only [Nat.toDigitsCore]
    by_cases h0 : n / 10 = 0
    · rw [if_pos h0]; simp
    · rw [if_neg h0]
      calc ds.length ≤ (Nat.digitChar (n % 10) :: ds).length := by simp
        _ ≤ _ := ih (n / 10) _

theorem repr_data_ne_nil (n : Nat) : (Nat.repr n).data ≠ [] := by
  have h : ([] : List Char).length < (Nat.toDigitsCore 10 (n + 1) n []).length := by
    simp only [Nat.toDigitsCore]
    by_cases h0 : n / 10 = 0
    · rw [if_pos h0]; simp
    · rw [if_neg h0]
      calc ([] : List Char).length < (Nat.digitChar (n % 10) :: []).length := by simp
        _ ≤ _ := toDigitsCore_length _ _ _
  intro hnil
  rw [show (Nat.repr n).data = Nat.toDigitsCore 10 (n + 1) n [] from rfl] at hnil
  simp [hnil] at h

/-!
## Splitting scans at the interpolated number

`commandLine` is `literal ++ digits ++ literal ++ FAKE ++ literal`, with the
digits coming from `Nat.repr`.  A searched-for block that contains no digit
characters can never overlap the digit run, so scanning the whole string
reduces to scanning the literal parts.
-/

theorem prefix_of_append_digits {p u d v : List Char}
    (hp : ∀ c ∈ p, c.isDigit = false) (hd : ∀ c ∈ d, c.isDigit = true)
    (hdne : d ≠ []) (h : p <+: u ++ (d ++ v)) : p <+: u := by
  rcases le_or_lt p.length u.length with hlen | hlen
  · have heq : p = (u ++ (d ++ v)).take p.length := List.prefix_iff_eq_take.mp h
    rw [List.take_append_eq_append_take, Nat.sub_eq_zero_of_le hlen,
      List.take_zero, List.append_nil] at heq
    rw [heq]
    exact List.take_prefix _ _
  · exfalso
    obtain ⟨t, ht⟩ := h
    have hdrop : p.drop u.length ++ t = d ++ v := by
      have h2 := congrArg (List.drop u.length) ht
      rwa [List.drop_append_eq_append_drop, Nat.sub_eq_zero_of_le (Nat.le_of_lt hlen),
        List.drop_zero, List.drop_left] at h2
    cases hdp : p.drop u.length with
    | nil =>
      have h3 := congrArg List.length hdp
      simp only [List.length_drop, List.length_nil] at h3
      omega
    | cons c rest =>
      cases d with
      | nil => exact hdne rfl
      | cons e d2 =>
        rw [hdp] at hdrop
        simp only [List.cons_append] at hdrop
        have hce : c = e := (List.cons.injEq _ _ _ _).mp hdrop |>.1
        have hcp : c ∈ p := by
          have hmem : c ∈ p.drop u.length := by
            rw [hdp]; exact List.mem_cons_self _ _
          exact List.drop_subset _ _ hmem
        have h1 := hp c hcp
        have h2 := hd e (List.mem_cons_self _ _)
        rw [hce] at h1
        rw [h1] at h2
        exact Bool.false_ne_true h2

theorem occs_digits_append {p : List Char} (v : List Char) (hpne : p ≠ [])
    (hp : ∀ c ∈ p, c.isDigit = false) :
    ∀ d : List Char, (∀ c ∈ d, c.isDigit = true) → occs p (d ++ v) = occs p v := by
  intro d
  induction d with
  | nil => simp
  | cons c d2 ih =>
    intro hd
    have hnp : ¬ p <+: c :: (d2 ++ v) := by
      cases p with
      | nil => exact absurd rfl hpne
      | cons q p2 =>
        intro hpre
        obtain ⟨t, ht⟩ := hpre
        simp only [List.cons_append] at ht
        have hqc : q = c := (List.cons.injEq _ _ _ _).mp ht |>.1
        have h1 := hp q (List.mem_cons_self _ _)
        have h2 := hd c (List.mem_cons_self _ _)
        rw [hqc] at h1
        rw [h1] at h2
        exact Bool.false_ne_true h2
    have ihd : ∀ c2 ∈ d2, c2.isDigit = true := fun c2 hc2 => hd c2 (List.mem_cons_of_mem _ hc2)
    simp only [List.cons_append, List.append_eq, occs, List.isPrefixOf_iff_prefix]
    rw [if_neg hnp]
    simpa using ih ihd

theorem occs_append_digits {p : List Char} (hpne : p ≠ [])
    (hp : ∀ c ∈ p, c.isDigit = false) {d : List Char}
    (hd : ∀ c ∈ d, c.isDigit = true) (hdne : d ≠ []) :
    ∀ u v : List Char, occs p (u ++ (d ++ v)) = occs p u + occs p v := by
  intro u v
  induction u with
  | nil => simpa [occs] using occs_digits_append v hpne hp d hd
  | cons x u2 ih =>
    have hiff : (p <+: x :: (u2 ++ (d ++ v))) ↔ (p <+: x :: u2) := by
      constructor
      · intro h2
        exact prefix_of_append_digits hp hd hdne h2
      · intro h2
        exact h2.trans (List.prefix_append (x :: u2) (d ++ v))
    simp only [List.cons_append, List.append_eq, occs, List.isPrefixOf_iff_prefix]
    rw [if_congr hiff rfl rfl, ih]
    omega

theorem afterFirst_plant {p : List Char} (hpne : p ≠ []) :
    ∀ a r : List Char, noEarlyOcc p a = true → afterFirst p (a ++ (p ++ r)) = some r := by
  intro a
  induction a with
  | nil =>
    intro r _
    rw [List.nil_append]
    cases p with
    | nil => exact absurd rfl hpne
    | cons q p2 =>
      show afterFirst (q :: p2) (q :: (p2 ++ r)) = some r
      simp only [afterFirst, List.isPrefixOf_iff_prefix]
      rw [if_pos (show q :: p2 <+: q :: (p2 ++ r) from List.prefix_append (q :: p2) r)]
      rw [show q :: (p2 ++ r) = (q :: p2) ++ r from rfl, List.drop_left]
  | cons x a2 ih =>
    intro r hno
    have hparts : ((x :: a2).isEmpty || !(p.isPrefixOf ((x :: a2) ++ p))) = true
        ∧ noEarlyOcc p a2 = true := by
      have h2 := hno
      simp only [noEarlyOcc, List.tails_cons, List.all_cons] at h2
      exact ⟨(Bool.and_eq_true _ _ |>.mp h2).1, (Bool.and_eq_true _ _ |>.mp h2).2⟩
    have hkey : ¬ p <+: (x :: a2) ++ p := by
      intro hpre
      have h4 : p.isPrefixOf ((x :: a2) ++ p) = true := List.isPrefixOf_iff_prefix.mpr hpre
      have h3 := hparts.1
      rw [h4] at h3
      simp at h3
    have hnp : ¬ p <+: x :: (a2 ++ (p ++ r)) := by
      intro hpre
      have hx : x :: (a2 ++ (p ++ r)) = ((x :: a2) ++ p) ++ r := by
        simp [List.append_assoc]
      rw [hx] at hpre
      exact hkey (List.prefix_of_prefix_length_le hpre (List.prefix_append _ _)
        (by simp only [List.length_append]; omega))
    simp only [List.cons_append, List.append_eq, afterFirst, List.isPrefixOf_iff_prefix]
    rw [if_neg hnp]
    exact ih r hparts.2

theorem extractAfter_digits {p : List Char} (f : Char → Bool) (v : List Char)
    (hpne : p ≠ []) (hp : ∀ c ∈ p, c.isDigit = false) :
    ∀ d : List Char, (∀ c ∈ d, c.isDigit = true) →
    extractAfter p f (d ++ v) = extractAfter p f v := by
  intro d
  induction d with
  | nil => simp
  | cons c d2 ih =>
    intro hd
    have hnp : ¬ p <+: c :: (d2 ++ v) := by
      cases p with
      | nil => exact absurd rfl hpne
      | cons q p2 =>
        intro hpre
        obtain ⟨t, ht⟩ := hpre
        simp only [List.cons_append] at ht
        have hqc : q = c := (List.cons.injEq _ _ _ _).mp ht |>.1
        have h1 := hp q (List.mem_cons_self _ _)
        have h2 := hd c (List.mem_cons_self _ _)
        rw [hqc] at h1
        rw [h1] at h2
        exact Bool.false_ne_true h2
    have ihd : ∀ c2 ∈ d2, c2.isDigit = true := fun c2 hc2 => hd c2 (List.mem_cons_of_mem _ hc2)
    simp only [List.cons_append, List.append_eq, extractAfter, List.isPrefixOf_iff_prefix]
    rw [if_neg hnp]
    simpa using ih ihd

theorem extractAfter_append_digits {p : List Char} (f : Char → Bool) (hpne : p ≠ [])
    (hp : ∀ c ∈ p, c.isDigit = false) {d : List Char}
    (hd : ∀ c ∈ d, c.isDigit = true) (hdne : d ≠ []) :
    ∀ a v : List Char, occs p a = 0 →
    extractAfter p f (a ++ (d ++ v)) = extractAfter p f v := by
  intro a
  induction a with
  | nil =>
    intro v _
    rw [List.nil_append]
    exact extractAfter_digits f v hpne hp d hd
  | cons x a2 ih =>
    intro v hocc
    have hx : occs p (x :: a2) = (if p <+: x :: a2 then 1 else 0) + occs p a2 := by
      simp [occs, List.isPrefixOf_iff_prefix]
    have hnp : ¬ p <+: x :: (a2 ++ (d ++ v)) := by
      intro hpre
      have hpx : p <+: x :: a2 := prefix_of_append_digits hp hd hdne hpre
      rw [hx, if_pos hpx] at hocc
      omega
    have hocc2 : occs p a2 = 0 := by
      rw [hx] at hocc
      omega
    simp only [List.cons_append, List.append_eq, extractAfter, List.isPrefixOf_iff_prefix]
    rw [if_neg hnp]
    simpa using ih v hocc2

theorem takeWhile_append_nil {f : Char → Bool} {l l2 : List Char}
    (h : l.takeWhile f = []) (hne : l ≠ []) : (l ++ l2).takeWhile f = [] := by
  cases l with
  | nil => exact absurd rfl hne
  | cons c tl =>
    cases hfc : f c with
    | false => simp [List.takeWhile_cons, hfc]
    | true =>
      rw [List.takeWhile_cons, if_pos hfc] at h
      exact absurd h (by simp)

/-!
## Scanning the emitted `commandLine`
-/

/-- The text of the f-string before the `mpirun` invocation (the first two
shell commands of `commandLine`). -/
def cmdEchoPart : String :=
  "echo $AZ_BATCH_HOST_LIST;     cat $AZ_BATCHAI_MPI_HOST_FILE;     "

theorem cmdTextBeforeNp_split :
    cmdTextBeforeNp.data = cmdEchoPart.data ++ "mpirun -np ".data := by decide

theorem takeWhile_all {f : Char → Bool} :
    ∀ l : List Char, (∀ c ∈ l, f c = true) → l.takeWhile f = l := by
  intro l
  induction l with
  | nil => simp
  | cons c tl ih =>
    intro h
    rw [List.takeWhile_cons, if_pos (h c (List.mem_cons_self _ _)),
      ih fun c2 hc2 => h c2 (List.mem_cons_of_mem _ hc2)]

/-- The digit run after the (first) `mpirun -np ` in the emitted
`commandLine` is exactly the decimal rendering of the interpolated
`TOTAL_PROCESSES`, whatever the `FAKE` string is. -/
theorem digitsAfter_np (T : Nat) (F : String) :
    digitsAfter "mpirun -np " (commandLine T F) = some (Nat.repr T).data := by
  have hdata : (commandLine T F).data =
      cmdEchoPart.data ++ ("mpirun -np ".data ++
        ((Nat.repr T).data ++ (cmdTextMid.data ++ (F.data ++ cmdTextAfterFake.data)))) := by
    simp [commandLine, cmdTextBeforeNp_split]
  simp only [digitsAfter, hdata]
  rw [afterFirst_plant (by decide) _ _ (by decide)]
  simp only [Option.map_some']
  rw [List.takeWhile_append_of_pos (repr_data_digits T),
    takeWhile_append_nil (by decide) (by decide), List.append_nil]

/-- `mpirun -np ` occurs exactly once in the emitted `commandLine`, for
either value of the fake-data flag: the digit run `digitsAfter` reads sits
after its unique occurrence. -/
theorem occs_np_commandLine (T : Nat) (uf : Bool) :
    occs "mpirun -np ".data (commandLine T (FAKE uf)).data = 1 := by
  have hdata : (commandLine T (FAKE uf)).data =
      cmdTextBeforeNp.data ++ ((Nat.repr T).data ++
        (cmdTextMid.data ++ ((FAKE uf).data ++ cmdTextAfterFake.data))) := by
    simp [commandLine]
  rw [hdata,
    occs_append_digits (by decide) (by decide) (repr_data_digits T) (repr_data_ne_nil T)]
  cases uf <;> decide

/-- How often the token `-env FAKE=True` occurs in the emitted
`commandLine`: once when `USE_FAKE` is true, never when it is false. -/
theorem occs_fake_commandLine (T : Nat) (uf : Bool) :
    occs "-env FAKE=True".data (commandLine T (FAKE uf)).data = if uf then 1 else 0 := by
  have hdata : (commandLine T (FAKE uf)).data =
      cmdTextBeforeNp.data ++ ((Nat.repr T).data ++
        (cmdTextMid.data ++ ((FAKE uf).data ++ cmdTextAfterFake.data))) := by
    simp [commandLine]
  rw [hdata,
    occs_append_digits (by decide) (by decide) (repr_data_digits T) (repr_data_ne_nil T)]
  cases uf <;> decide

/-!
## The claims
-/

/-- C1: for every valid configuration, `TOTAL_PROCESSES` equals the product
`PROCESSES_PER_NODE * NUM_NODES`; the emitted descriptor's `nodeCount` is
`NUM_NODES`; and the digit run embedded after `mpirun -np ` in the
descriptor's `commandLine` (which occurs exactly once) is the decimal
rendering of that same product — so `nodeCount * processesPerNode` equals
the process count embedded in `commandLine`. -/
theorem total_processes_product_embedded_after_np
    (NUM_NODES PROCESSES_PER_NODE : Nat) (USE_FAKE : Bool) (DOCKERHUB : String) :
    TOTAL_PROCESSES PROCESSES_PER_NODE NUM_NODES = PROCESSES_PER_NODE * NUM_NODES
    ∧ (jobs_dict NUM_NODES PROCESSES_PER_NODE USE_FAKE DOCKERHUB).properties.nodeCount = NUM_NODES
    ∧ digitsAfter "mpirun -np "
        (jobs_dict NUM_NODES PROCESSES_PER_NODE USE_FAKE DOCKERHUB).properties.customToolkitSettings.commandLine
      = some (Nat.repr (PROCESSES_PER_NODE * NUM_NODES)).data
    ∧ occs "mpirun -np ".data
        (jobs_dict NUM_NODES PROCESSES_PER_NODE USE_FAKE DOCKERHUB).properties.customToolkitSettings.commandLine.data
      = 1 :=
  ⟨rfl, rfl,
    digitsAfter_np (TOTAL_PROCESSES PROCESSES_PER_NODE NUM_NODES) (FAKE USE_FAKE),
    occs_np_commandLine (TOTAL_PROCESSES PROCESSES_PER_NODE NUM_NODES) USE_FAKE⟩

/-- C2 (counterexample): with `GPU_TYPE` absent from the configuration
store and `DOCKER_REPOSITORY` absent from the environment — `USE_FAKE` is
never read from any store at all — the builder still succeeds and produces
the descriptor with the default registry `masalvar`, so absence of a
"required" key does not make it fail. -/
theorem builder_succeeds_without_gpu_type_and_dockerhub :
    runBuilder ⟨some "rg", some "fs", some "ws", some 2, some "cl", none, some 4⟩ ⟨none⟩
      = Except.ok (jobs_dict 2 4 false "masalvar") := rfl

/-- C2 (amended): the builder fails — with an uncaught `TypeError` at the
`TOTAL_PROCESSES` multiplication, not a `ConfigurationError` — exactly when
`NUM_NODES` or `PROCESSES_PER_NODE` is missing, and then produces no
descriptor; `GPU_TYPE`, `USE_FAKE` and `DOCKERHUB` never cause a failure
(`USE_FAKE` is the hardcoded literal `False`, `DOCKERHUB` defaults to
`masalvar`, and `GPU_TYPE` only feeds the experiment name). -/
theorem builder_fails_iff_counts_missing (store : EnvStore) (env : OsEnv) :
    ((∃ d, runBuilder store env = Except.ok d) ↔
      (store.NUM_NODES ≠ none ∧ store.PROCESSES_PER_NODE ≠ none))
    ∧ (runBuilder store env = Except.error PyError.typeError ↔
      (store.NUM_NODES = none ∨ store.PROCESSES_PER_NODE = none)) := by
  rcases store with ⟨g, fs, w, nn, c, gt, ppn⟩
  cases nn <;> cases ppn <;> simp [runBuilder]

/-- Uploads (lines 61-64) all precede the job submission (line 128) in the
notebook's fixed sequence. -/
def uploadsPrecedeSubmit : Prop :=
  ∀ i j : Fin script.length, (script.get i).kind = StepKind.storageUpload →
    (script.get j).kind = StepKind.jobCreate → i < j

/-- The job submission (line 128) precedes every status poll and log
stream (lines 132-142) in the notebook's fixed sequence. -/
def submitPrecedesPollsAndStreams : Prop :=
  ∀ i j : Fin script.length, (script.get i).kind = StepKind.jobCreate →
    isPollOrStream (script.get j).kind = true → i < j

/-- Every delete step leaves the `az` CLI's confirmation prompt active
(no `-y` flag): this is what "delete only after explicit operator
confirmation" means at the level of the executed commands. -/
def deletesOnlyAfterConfirmation : Prop :=
  ∀ s ∈ script, isDelete s.kind = true → s.autoYes = false

/-- C3 (counterexample): the claimed ordering-and-confirmation property is
false, because every delete command of the notebook passes `-y`
("do not prompt for confirmation") — here the job delete of line 146 — so
deletes do not wait for operator confirmation. -/
theorem lifecycle_confirmation_refuted :
    ¬ (uploadsPrecedeSubmit ∧ submitPrecedesPollsAndStreams ∧ deletesOnlyAfterConfirmation) := by
  intro h
  exact absurd (h.2.2 ⟨StepKind.jobDelete, true⟩ (by decide) (by decide)) (by decide)

/-- C3 (amended): the lifecycle steps do run in the fixed sequential
order — every artifact upload precedes the job submission, the submission
precedes every status poll and log stream, and every delete comes after
the submission — but each delete command carries the `-y` flag, explicitly
suppressing the CLI's confirmation prompt instead of requiring operator
confirmation. -/
theorem lifecycle_order_fixed_deletes_auto_confirmed :
    uploadsPrecedeSubmit ∧ submitPrecedesPollsAndStreams ∧
    (∀ i j : Fin script.length, (script.get i).kind = StepKind.jobCreate →
      isDelete (script.get j).kind = true → i < j) ∧
    (∀ s ∈ script, isDelete s.kind = true → s.autoYes = true) := by
  refine ⟨?_, ?_, by decide, by decide⟩
  · unfold uploadsPrecedeSubmit
    decide
  · unfold submitPrecedesPollsAndStreams
    decide

/-- C4: toggling `USE_FAKE` from false to true changes the emitted
`commandLine` only by splicing in the single token `-env FAKE=True` (all
surrounding text `pre`/`post` identical), and that token then occurs
exactly once — and not at all when the flag is false. -/
theorem use_fake_inserts_one_token
    (NUM_NODES PROCESSES_PER_NODE : Nat) (DOCKERHUB : String) :
    ∃ pre post : List Char,
      (jobs_dict NUM_NODES PROCESSES_PER_NODE true DOCKERHUB).properties.customToolkitSettings.commandLine.data
        = pre ++ ("-env FAKE=True".data ++ post)
      ∧ (jobs_dict NUM_NODES PROCESSES_PER_NODE false DOCKERHUB).properties.customToolkitSettings.commandLine.data
        = pre ++ post
      ∧ occs "-env FAKE=True".data
          (jobs_dict NUM_NODES PROCESSES_PER_NODE true DOCKERHUB).properties.customToolkitSettings.commandLine.data = 1
      ∧ occs "-env FAKE=True".data
          (jobs_dict NUM_NODES PROCESSES_PER_NODE false DOCKERHUB).properties.customToolkitSettings.commandLine.data = 0 := by
  refine ⟨cmdTextBeforeNp.data ++
      ((Nat.repr (TOTAL_PROCESSES PROCESSES_PER_NODE NUM_NODES)).data ++ cmdTextMid.data),
    cmdTextAfterFake.data, ?_, ?_, ?_, ?_⟩
  · show (commandLine (TOTAL_PROCESSES PROCESSES_PER_NODE NUM_NODES) (FAKE true)).data = _
    simp [commandLine, FAKE]
  · show (commandLine (TOTAL_PROCESSES PROCESSES_PER_NODE NUM_NODES) (FAKE false)).data = _
    simp [commandLine, FAKE]
  · simpa using occs_fake_commandLine (TOTAL_PROCESSES PROCESSES_PER_NODE NUM_NODES) true
  · simpa using occs_fake_commandLine (TOTAL_PROCESSES PROCESSES_PER_NODE NUM_NODES) false

/-- C5: with `NUM_NODES=2`, `PROCESSES_PER_NODE=4`, `GPU_TYPE="V100"` and
the script's `USE_FAKE=False`, the builder accepts the configuration and
emits a descriptor with `nodeCount = 2` whose `commandLine` contains the
substring `mpirun -np 8` (exactly once) and contains no `FAKE=True`
anywhere. -/
theorem scenario_two_nodes_four_processes :
    runBuilder ⟨some "rg", some "fs", some "ws", some 2, some "cl", some "V100", some 4⟩ ⟨none⟩
      = Except.ok (jobs_dict 2 4 false "masalvar")
    ∧ (jobs_dict 2 4 false "masalvar").properties.nodeCount = 2
    ∧ occs "mpirun -np 8".data
        (jobs_dict 2 4 false "masalvar").properties.customToolkitSettings.commandLine.data = 1
    ∧ occs "FAKE=True".data
        (jobs_dict 2 4 false "masalvar").properties.customToolkitSettings.commandLine.data = 0 :=
  ⟨rfl, rfl, by decide, by decide⟩

/-- Characters that can make up the `<ID>` of an `AZ_BATCHAI_INPUT_<ID>`
environment-variable reference: capital letters, digits, underscore. -/
def idChar (c : Char) : Bool := c.isUpper || c.isDigit || c == '_'

/-- All ids referenced in `s` as `AZ_BATCHAI_INPUT_<ID>`, covering both the
`$AZ_BATCHAI_INPUT_SCRIPTS/...` expansion form and the
`-x AZ_BATCHAI_INPUT_TRAIN` forwarding form. -/
def referencedInputIds (s : String) : List (List Char) :=
  extractAfter "AZ_BATCHAI_INPUT_".data idChar s.data

/-- Whatever the configuration, the ids referenced in the emitted
`commandLine` are exactly `TRAIN`, `TEST` and `SCRIPTS` (in order of
occurrence). -/
theorem referencedInputIds_commandLine (T : Nat) (uf : Bool) :
    referencedInputIds (commandLine T (FAKE uf)) =
      ["TRAIN".data, "TEST".data, "SCRIPTS".data] := by
  unfold referencedInputIds
  have hdata : (commandLine T (FAKE uf)).data =
      cmdTextBeforeNp.data ++ ((Nat.repr T).data ++
        (cmdTextMid.data ++ ((FAKE uf).data ++ cmdTextAfterFake.data))) := by
    simp [commandLine]
  rw [hdata, extractAfter_append_digits idChar (by decide) (by decide)
    (repr_data_digits T) (repr_data_ne_nil T) cmdTextBeforeNp.data _ (by decide)]
  cases uf <;> decide

/-- C6: every id referenced in the emitted `commandLine` through an
`AZ_BATCHAI_INPUT_<ID>` variable (SCRIPTS, TRAIN, TEST) is the `id` field
of some record of the descriptor's `inputDirectories`. -/
theorem referenced_ids_exist_in_inputDirectories
    (NUM_NODES PROCESSES_PER_NODE : Nat) (USE_FAKE : Bool) (DOCKERHUB : String) :
    ∀ i ∈ referencedInputIds
        (jobs_dict NUM_NODES PROCESSES_PER_NODE USE_FAKE DOCKERHUB).properties.customToolkitSettings.commandLine,
      i ∈ ((jobs_dict NUM_NODES PROCESSES_PER_NODE USE_FAKE DOCKERHUB).properties.inputDirectories.map
        InputDirectory.id).map String.data := by
  intro i hi
  have hx : referencedInputIds
      ((jobs_dict NUM_NODES PROCESSES_PER_NODE USE_FAKE DOCKERHUB).properties.customToolkitSettings.commandLine)
      = ["TRAIN".data, "TEST".data, "SCRIPTS".data] :=
    referencedInputIds_commandLine (TOTAL_PROCESSES PROCESSES_PER_NODE NUM_NODES) USE_FAKE
  rw [hx] at hi
  simp only [List.mem_cons] at hi
  rcases hi with rfl | rfl | rfl | hi
  · exact (by decide :
      "TRAIN".data ∈ (["SCRIPTS", "TRAIN", "TEST"] : List String).map String.data)
  · exact (by decide :
      "TEST".data ∈ (["SCRIPTS", "TRAIN", "TEST"] : List String).map String.data)
  · exact (by decide :
      "SCRIPTS".data ∈ (["SCRIPTS", "TRAIN", "TEST"] : List String).map String.data)
  · simp at hi

/-- Witness for C6: the referenced id `TRAIN` is indeed among the
`inputDirectories` ids of a concrete emitted descriptor. -/
theorem referenced_ids_exist_in_inputDirectories_witness :
    "TRAIN".data ∈ ((jobs_dict 2 4 false "masalvar").properties.inputDirectories.map
      InputDirectory.id).map String.data :=
  referenced_ids_exist_in_inputDirectories 2 4 false "masalvar" "TRAIN".data (by decide)

/-- C8: every configuration the script actually accepts yields a
`commandLine` with no `-env FAKE=True` token at all, because line 48 fixes
`USE_FAKE = False` instead of reading it from the configuration store. -/
theorem accepted_runs_never_emit_fake_token (store : EnvStore) (env : OsEnv) (d : JobsDict)
    (h : runBuilder store env = Except.ok d) :
    occs "-env FAKE=True".data d.properties.customToolkitSettings.commandLine.data = 0 := by
  rcases store with ⟨g, fs, w, nn, c, gt, ppn⟩
  cases ppn with
  | none => simp [runBuilder] at h
  | some ppn2 =>
    cases nn with
    | none => simp [runBuilder] at h
    | some nn2 =>
      simp only [runBuilder] at h
      have hd : jobs_dict nn2 ppn2 false (env.DOCKER_REPOSITORY.getD "masalvar") = d := by
        injection h
      subst hd
      simpa using occs_fake_commandLine (TOTAL_PROCESSES ppn2 nn2) false

/-- Witness for C8 at a concrete accepted configuration. -/
theorem accepted_runs_never_emit_fake_token_witness :
    occs "-env FAKE=True".data
      (jobs_dict 2 4 false "masalvar").properties.customToolkitSettings.commandLine.data = 0 :=
  accepted_runs_never_emit_fake_token
    ⟨some "rg", some "fs", some "ws", some 2, some "cl", some "V100", some 4⟩ ⟨none⟩ _ rfl

/-- C9: in every accepted run the descriptor's container image is
`DOCKERHUB ++ "/caia-horovod-pytorch"`, where `DOCKERHUB` is the
`DOCKER_REPOSITORY` environment variable when set and `masalvar` otherwise;
the suffix `/caia-horovod-pytorch` is fixed, not configurable. -/
theorem image_is_dockerhub_with_fixed_suffix (store : EnvStore) (env : OsEnv) (d : JobsDict)
    (h : runBuilder store env = Except.ok d) :
    d.properties.containerSettings.imageSourceRegistry.image
      = env.DOCKER_REPOSITORY.getD "masalvar" ++ "/caia-horovod-pytorch" := by
  rcases store with ⟨g, fs, w, nn, c, gt, ppn⟩
  cases ppn with
  | none => simp [runBuilder] at h
  | some ppn2 =>
    cases nn with
    | none => simp [runBuilder] at h
    | some nn2 =>
      simp only [runBuilder] at h
      have hd : jobs_dict nn2 ppn2 false (env.DOCKER_REPOSITORY.getD "masalvar") = d := by
        injection h
      subst hd
      rfl

/-- Witness for C9: with `DOCKER_REPOSITORY` set, the image is that
override followed by the fixed suffix. -/
theorem image_is_dockerhub_with_fixed_suffix_witness :
    (jobs_dict 2 4 false "example-registry").properties.containerSettings.imageSourceRegistry.image
      = "example-registry/caia-horovod-pytorch" :=
  (image_is_dockerhub_with_fixed_suffix
    ⟨some "rg", some "fs", some "ws", some 2, some "cl", some "V100", some 4⟩
    ⟨some "example-registry"⟩ _ rfl).trans (by decide)

/-- C10: the number embedded in `JOB_NAME` (after `pytorch-horovod-`) and
the process count embedded after `mpirun -np ` in the descriptor's
`commandLine` are both the decimal rendering of
`TOTAL_PROCESSES = PROCESSES_PER_NODE * NUM_NODES`, so they always
agree. -/
theorem job_name_count_agrees_with_np_count
    (NUM_NODES PROCESSES_PER_NODE : Nat) (USE_FAKE : Bool) (DOCKERHUB : String) :
    digitsAfter "pytorch-horovod-" (JOB_NAME NUM_NODES PROCESSES_PER_NODE)
      = some (Nat.repr (TOTAL_PROCESSES PROCESSES_PER_NODE NUM_NODES)).data
    ∧ digitsAfter "pytorch-horovod-" (JOB_NAME NUM_NODES PROCESSES_PER_NODE)
      = digitsAfter "mpirun -np "
          (jobs_dict NUM_NODES PROCESSES_PER_NODE USE_FAKE DOCKERHUB).properties.customToolkitSettings.commandLine := by
  have h1 : digitsAfter "pytorch-horovod-" (JOB_NAME NUM_NODES PROCESSES_PER_NODE)
      = some (Nat.repr (NUM_NODES * PROCESSES_PER_NODE)).data := by
    have hdata : (JOB_NAME NUM_NODES PROCESSES_PER_NODE).data =
        [] ++ ("pytorch-horovod-".data ++ (Nat.repr (NUM_NODES * PROCESSES_PER_NODE)).data) := by
      simp [JOB_NAME]
    simp only [digitsAfter, hdata]
    rw [afterFirst_plant (by decide) _ _ (by decide)]
    simp only [Option.map_some']
    rw [takeWhile_all _ (repr_data_digits _)]
  have h2 : some (Nat.repr (NUM_NODES * PROCESSES_PER_NODE)).data
      = some (Nat.repr (PROCESSES_PER_NODE * NUM_NODES)).data :=
    congrArg (fun k => some (Nat.repr k).data) (Nat.mul_comm NUM_NODES PROCESSES_PER_NODE)
  exact ⟨h1.trans h2,
    h1.trans (h2.trans
      (digitsAfter_np (TOTAL_PROCESSES PROCESSES_PER_NODE NUM_NODES) (FAKE USE_FAKE)).symm)⟩

/-!
## C7: JSON round-trip of the descriptor

`write_json_to_file(jobs_dict, 'job.json')` (line 122) serializes the
descriptor; its implementation lives in `common/utils.py`, which is not
part of the repository snapshot, so serialization is modelled from the
spec as producing the JSON document tree of §3/§6 (top-level `$schema`
and `properties` keys), and re-parsing as reading that tree back. -/

/-- A JSON value as needed for the job document: strings, numbers, arrays
and objects (an object is an ordered list of key-value pairs, as
`json.dump` writes it). -/
inductive Json where
  | str : String → Json
  | num : Nat → Json
  | arr : List Json → Json
  | obj : List (String × Json) → Json

/-- Object-key lookup, first match wins (JSON object field access). -/
def lookupField (key : String) : List (String × Json) → Option Json
  | [] => none
  | (k, v) :: rest => if k == key then some v else lookupField key rest

/-- The field `key` of an object, `none` on non-objects. -/
def Json.getField (j : Json) (key : String) : Option Json :=
  match j with
  | .obj fields => lookupField key fields
  | _ => none

/-- The payload of a JSON string. -/
def Json.asString : Json → Option String
  | .str s => some s
  | _ => none

/-- The payload of a JSON number. -/
def Json.asNat : Json → Option Nat
  | .num n => some n
  | _ => none

/-- The payload of a JSON array. -/
def Json.asArr : Json → Option (List Json)
  | .arr l => some l
  | _ => none

/-- Parse each element of a JSON array, failing if any element fails. -/
def decodeList (f : Json → Option α) : List Json → Option (List α)
  | [] => some []
  | j :: rest => do
    let x ← f j
    let xs ← decodeList f rest
    pure (x :: xs)

/-- An `inputDirectories` record as JSON: `{id, path}`. -/
def inputDirectoryToJson (d : InputDirectory) : Json :=
  Json.obj [("id", Json.str d.id), ("path", Json.str d.path)]

/-- Parse an `inputDirectories` record. -/
def inputDirectoryOfJson (j : Json) : Option InputDirectory := do
  let i ← (← j.getField "id").asString
  let p ← (← j.getField "path").asString
  pure { id := i, path := p }

/-- An `outputDirectories` record as JSON: `{id, pathPrefix, pathSuffix}`. -/
def outputDirectoryToJson (d : OutputDirectory) : Json :=
  Json.obj [("id", Json.str d.id), ("pathPrefix", Json.str d.stdPathPfx),
    ("pathSuffix", Json.str d.stdPathSfx)]

/-- Parse an `outputDirectories` record. -/
def outputDirectoryOfJson (j : Json) : Option OutputDirectory := do
  let i ← (← j.getField "id").asString
  let pp ← (← j.getField "pathPrefix").asString
  let ps ← (← j.getField "pathSuffix").asString
  pure { id := i, stdPathPfx := pp, stdPathSfx := ps }

/-- The JSON document tree of the descriptor, with the keys of the
dictionary literal of lines 74-120. -/
def jobsDictToJson (jd : JobsDict) : Json :=
  Json.obj
    [("$schema", Json.str jd.schema),
     ("properties", Json.obj
       [("nodeCount", Json.num jd.properties.nodeCount),
        ("customToolkitSettings", Json.obj
          [("commandLine", Json.str jd.properties.customToolkitSettings.commandLine)]),
        ("stdOutErrPathPrefix", Json.str jd.properties.stdOutErrPath),
        ("inputDirectories", Json.arr (jd.properties.inputDirectories.map inputDirectoryToJson)),
        ("outputDirectories", Json.arr (jd.properties.outputDirectories.map outputDirectoryToJson)),
        ("containerSettings", Json.obj
          [("imageSourceRegistry", Json.obj
            [("image", Json.str jd.properties.containerSettings.imageSourceRegistry.image)])])])]

/-- Modelled from the spec: `write_json_to_file` (line 122) comes from
`common/utils.py`, which is not among the repository's files; per §4.1 and
§6 it serializes the descriptor to "a JSON document ... with top-level
`$schema` and `properties` keys" with no other side effect, modelled as
producing the document tree. -/
def write_json_to_file (jd : JobsDict) : Json :=
  jobsDictToJson jd

/-- Parse the `customToolkitSettings` object. -/
def decodeCustomToolkit (j : Json) : Option CustomToolkitSettings :=
  ((j.getField "commandLine").bind Json.asString).bind fun cl =>
  some { commandLine := cl }

/-- Parse the `containerSettings` object. -/
def decodeContainerSettings (j : Json) : Option ContainerSettings :=
  ((j.getField "imageSourceRegistry").bind fun isr =>
    (isr.getField "image").bind Json.asString).bind fun img =>
  some { imageSourceRegistry := { image := img } }

/-- Parse the `properties` object: each step fails when a key or payload
is missing or of the wrong shape. -/
def decodeJobProperties (props : Json) : Option JobProperties :=
  ((props.getField "nodeCount").bind Json.asNat).bind fun nc =>
  ((props.getField "customToolkitSettings").bind decodeCustomToolkit).bind fun cts =>
  ((props.getField "stdOutErrPathPrefix").bind Json.asString).bind fun so =>
  (((props.getField "inputDirectories").bind Json.asArr).bind
    (decodeList inputDirectoryOfJson)).bind fun ids =>
  (((props.getField "outputDirectories").bind Json.asArr).bind
    (decodeList outputDirectoryOfJson)).bind fun ods =>
  ((props.getField "containerSettings").bind decodeContainerSettings).bind fun cs =>
  some { nodeCount := nc, customToolkitSettings := cts, stdOutErrPath := so,
         inputDirectories := ids, outputDirectories := ods, containerSettings := cs }

/-- Re-parse the serialized job document into a descriptor. -/
def jobsDictOfJson (j : Json) : Option JobsDict :=
  ((j.getField "$schema").bind Json.asString).bind fun sch =>
  ((j.getField "properties").bind decodeJobProperties).bind fun props =>
  some { schema := sch, properties := props }

theorem inputDirectory_roundtrip (d : InputDirectory) :
    inputDirectoryOfJson (inputDirectoryToJson d) = some d := rfl

theorem outputDirectory_roundtrip (d : OutputDirectory) :
    outputDirectoryOfJson (outputDirectoryToJson d) = some d := rfl

theorem decodeList_inputDirectory_roundtrip (l : List InputDirectory) :
    decodeList inputDirectoryOfJson (l.map inputDirectoryToJson) = some l := by
  induction l with
  | nil => rfl
  | cons d tl ih =>
    simp [decodeList, inputDirectory_roundtrip, ih]

theorem decodeList_outputDirectory_roundtrip (l : List OutputDirectory) :
    decodeList outputDirectoryOfJson (l.map outputDirectoryToJson) = some l := by
  induction l with
  | nil => rfl
  | cons d tl ih =>
    simp [decodeList, outputDirectory_roundtrip, ih]

/-- C7: serializing the in-memory descriptor to the job document and
re-parsing that document yields a descriptor field-for-field equal to the
original (JSON round-trip identity). -/
theorem descriptor_json_roundtrip (jd : JobsDict) :
    jobsDictOfJson (write_json_to_file jd) = some jd := by
  simp [write_json_to_file, jobsDictToJson, jobsDictOfJson, decodeJobProperties,
    decodeCustomToolkit, decodeContainerSettings, Json.getField, lookupField,
    Json.asString, Json.asNat, Json.asArr,
    decodeList_inputDirectory_roundtrip, decodeList_outputDirectory_roundtrip]
